import Mathlib

/-!
Verification of the Quantum_WC repository.

The repository holds two Python files:

* `app.py` — a Streamlit dashboard.  A one-qubit circuit `quantum_brain`
  (device `default.qubit`, wires=1) applies `RY(signal_strength)` then
  `RX(weight)` to `|0⟩` and returns the Pauli-Z expectation of wire 0.
  The dashboard evaluates it at the slider value and the hard-coded
  constant `learned_weight = 1.57`, and grants the connection iff the
  result is strictly positive.

* `main.py` — a standalone script.  A two-qubit circuit `qnn_circuit`
  applies `RY(inputs[0])` on both wires, `RX(weights[0])` on wire 0,
  `RX(weights[1])` on wire 1, a `CNOT [0,1]`, and returns the Pauli-Z
  expectation of wire 0.  `generate_data` draws ±1 bits, adds Gaussian
  noise to the signal, and labels with `np.where(X < 0, -1, 1)` on the
  clean bits.  A 20-iteration loop calls the external Adam optimizer's
  `step_and_cost` on a mean-squared-error cost over a 40-sample training
  set, prints progress every 5 epochs, then tests on a fresh 10-sample
  set and prints an accuracy percentage.

The embedding simulates the circuits on explicit statevectors over ℂ
(exactly what `default.qubit` does), and abstracts the two sources of
nondeterminism as parameters: the random draws of `generate_data`
(the ±1 bits and the noise values) and the external optimizer's
`step_and_cost` function together with its internal state.
-/

namespace QuantumWC

/-! ### One-qubit statevector simulation (`app.py`, `default.qubit`, wires=1) -/

/-- A one-qubit statevector: the amplitudes of basis states `|0⟩` and `|1⟩`. -/
structure Qubit where
  a0 : ℂ
  a1 : ℂ

/-- The gate `qml.RY(θ)` on one qubit: the matrix
`[[cos(θ/2), -sin(θ/2)], [sin(θ/2), cos(θ/2)]]`. -/
noncomputable def gateRY (θ : ℝ) (ψ : Qubit) : Qubit :=
  ⟨(Real.cos (θ / 2) : ℂ) * ψ.a0 - (Real.sin (θ / 2) : ℂ) * ψ.a1,
   (Real.sin (θ / 2) : ℂ) * ψ.a0 + (Real.cos (θ / 2) : ℂ) * ψ.a1⟩

/-- The gate `qml.RX(θ)` on one qubit: the matrix
`[[cos(θ/2), -i·sin(θ/2)], [-i·sin(θ/2), cos(θ/2)]]`. -/
noncomputable def gateRX (θ : ℝ) (ψ : Qubit) : Qubit :=
  ⟨(Real.cos (θ / 2) : ℂ) * ψ.a0 - Complex.I * (Real.sin (θ / 2) : ℂ) * ψ.a1,
   -(Complex.I * (Real.sin (θ / 2) : ℂ) * ψ.a0) + (Real.cos (θ / 2) : ℂ) * ψ.a1⟩

/-- The measurement `qml.expval(qml.PauliZ(0))` on one qubit:
`|a0|² - |a1|²`. -/
noncomputable def expvalZ (ψ : Qubit) : ℝ :=
  Complex.normSq ψ.a0 - Complex.normSq ψ.a1

/-- The initial state `|0⟩` of `default.qubit`. -/
def ket0 : Qubit := ⟨1, 0⟩

/-- The qnode `quantum_brain(signal_strength, weight)` of `app.py`:
`RY(signal_strength)` encodes the signal, `RX(weight)` applies the learned
ruleset, and the Pauli-Z expectation of wire 0 is returned. -/
noncomputable def quantum_brain (signal_strength weight : ℝ) : ℝ :=
  expvalZ (gateRX weight (gateRY signal_strength ket0))

/-- The hard-coded pre-trained weight of `app.py`. -/
noncomputable def learned_weight : ℝ := 1.57

/-- The two outcomes the dashboard can render. -/
inductive Verdict where
  | granted : Verdict
  | rejected : Verdict
deriving DecidableEq

/-- The decision branch of `app.py`: `if result > 0:` render the success
message, `else:` render the error message. -/
noncomputable def verdictOf (result : ℝ) : Verdict :=
  if result > 0 then Verdict.granted else Verdict.rejected

/-- The handler of the `Process Connection Request` button in `app.py`:
`result = quantum_brain(signal_val, learned_weight)` followed by the
decision branch on `result`. -/
noncomputable def processConnectionRequest (signal_val : ℝ) : Verdict :=
  verdictOf (quantum_brain signal_val learned_weight)

/-! ### Two-qubit statevector simulation (`main.py`, `default.qubit`, wires=2) -/

/-- A two-qubit statevector: amplitudes of `|00⟩`, `|01⟩`, `|10⟩`, `|11⟩`
(wire 0 is the left index, as in PennyLane's wire ordering). -/
structure TwoQubit where
  a00 : ℂ
  a01 : ℂ
  a10 : ℂ
  a11 : ℂ

/-- The gate `qml.RY(θ, wires=0)` on two qubits: it mixes the amplitude
pairs that differ in the first index. -/
noncomputable def gateRY0 (θ : ℝ) (ψ : TwoQubit) : TwoQubit :=
  ⟨(Real.cos (θ / 2) : ℂ) * ψ.a00 - (Real.sin (θ / 2) : ℂ) * ψ.a10,
   (Real.cos (θ / 2) : ℂ) * ψ.a01 - (Real.sin (θ / 2) : ℂ) * ψ.a11,
   (Real.sin (θ / 2) : ℂ) * ψ.a00 + (Real.cos (θ / 2) : ℂ) * ψ.a10,
   (Real.sin (θ / 2) : ℂ) * ψ.a01 + (Real.cos (θ / 2) : ℂ) * ψ.a11⟩

/-- The gate `qml.RY(θ, wires=1)` on two qubits: it mixes the amplitude
pairs that differ in the second index. -/
noncomputable def gateRY1 (θ : ℝ) (ψ : TwoQubit) : TwoQubit :=
  ⟨(Real.cos (θ / 2) : ℂ) * ψ.a00 - (Real.sin (θ / 2) : ℂ) * ψ.a01,
   (Real.sin (θ / 2) : ℂ) * ψ.a00 + (Real.cos (θ / 2) : ℂ) * ψ.a01,
   (Real.cos (θ / 2) : ℂ) * ψ.a10 - (Real.sin (θ / 2) : ℂ) * ψ.a11,
   (Real.sin (θ / 2) : ℂ) * ψ.a10 + (Real.cos (θ / 2) : ℂ) * ψ.a11⟩

/-- The gate `qml.RX(θ, wires=0)` on two qubits. -/
noncomputable def gateRX0 (θ : ℝ) (ψ : TwoQubit) : TwoQubit :=
  ⟨(Real.cos (θ / 2) : ℂ) * ψ.a00 - Complex.I * (Real.sin (θ / 2) : ℂ) * ψ.a10,
   (Real.cos (θ / 2) : ℂ) * ψ.a01 - Complex.I * (Real.sin (θ / 2) : ℂ) * ψ.a11,
   -(Complex.I * (Real.sin (θ / 2) : ℂ) * ψ.a00) + (Real.cos (θ / 2) : ℂ) * ψ.a10,
   -(Complex.I * (Real.sin (θ / 2) : ℂ) * ψ.a01) + (Real.cos (θ / 2) : ℂ) * ψ.a11⟩

/-- The gate `qml.RX(θ, wires=1)` on two qubits. -/
noncomputable def gateRX1 (θ : ℝ) (ψ : TwoQubit) : TwoQubit :=
  ⟨(Real.cos (θ / 2) : ℂ) * ψ.a00 - Complex.I * (Real.sin (θ / 2) : ℂ) * ψ.a01,
   -(Complex.I * (Real.sin (θ / 2) : ℂ) * ψ.a00) + (Real.cos (θ / 2) : ℂ) * ψ.a01,
   (Real.cos (θ / 2) : ℂ) * ψ.a10 - Complex.I * (Real.sin (θ / 2) : ℂ) * ψ.a11,
   -(Complex.I * (Real.sin (θ / 2) : ℂ) * ψ.a10) + (Real.cos (θ / 2) : ℂ) * ψ.a11⟩

/-- The gate `qml.CNOT(wires=[0, 1])`: control on wire 0, target wire 1,
so it swaps the amplitudes of `|10⟩` and `|11⟩`. -/
def gateCNOT01 (ψ : TwoQubit) : TwoQubit :=
  ⟨ψ.a00, ψ.a01, ψ.a11, ψ.a10⟩

/-- The measurement `qml.expval(qml.PauliZ(0))` on two qubits:
`|a00|² + |a01|² - |a10|² - |a11|²`. -/
noncomputable def expvalZ0 (ψ : TwoQubit) : ℝ :=
  Complex.normSq ψ.a00 + Complex.normSq ψ.a01
    - Complex.normSq ψ.a10 - Complex.normSq ψ.a11

/-- The initial state `|00⟩` of `default.qubit`. -/
def ket00 : TwoQubit := ⟨1, 0, 0, 0⟩

/-- The qnode `qnn_circuit(inputs, weights)` of `main.py`:
`RY(inputs[0])` on both wires, `RX(weights[0])` on wire 0,
`RX(weights[1])` on wire 1, `CNOT [0, 1]`, then the Pauli-Z expectation
of wire 0.  `inputs` is the one-element row of the reshaped data matrix,
`weights` the two-element trainable vector. -/
noncomputable def qnn_circuit (inputs : Fin 1 → ℝ) (weights : Fin 2 → ℝ) : ℝ :=
  expvalZ0 (gateCNOT01 (gateRX1 (weights 1) (gateRX0 (weights 0)
    (gateRY1 (inputs 0) (gateRY0 (inputs 0) ket00)))))

/-! ### Synthetic data, cost and predictions (`main.py`) -/

/-- The generator `generate_data(n_samples)` of `main.py`, with its two
random draws made explicit: `bits` are the entries of
`np.random.choice([-1, 1], n_samples)` and `noise` the entries of
`np.random.normal(0, 0.5, n_samples)`.  It returns the noisy signals
`X + noise` (the `reshape(-1, 1)` column shape is flattened to one scalar
per row) and the labels `np.where(X < 0, -1, 1)` computed on the clean
bits `X`. -/
noncomputable def generate_data (n : ℕ) (bits : Fin n → ℤ) (noise : Fin n → ℝ) :
    (Fin n → ℝ) × (Fin n → ℤ) :=
  (fun i => (bits i : ℝ) + noise i, fun i => if bits i < 0 then -1 else 1)

/-- The operation `np.mean` on a list of scalars: sum divided by length. -/
noncomputable def npMean (l : List ℝ) : ℝ := l.sum / l.length

/-- The function `cost(weights, X, Y)` of `main.py`: the list comprehension
`[qnn_circuit(x, weights) for x in X]` followed by
`np.mean((np.array(predictions) - Y) ** 2)`, numpy's subtraction and
squaring being elementwise. -/
noncomputable def cost {n : ℕ} (weights : Fin 2 → ℝ) (X : Fin n → ℝ)
    (Y : Fin n → ℤ) : ℝ :=
  npMean (List.ofFn fun i : Fin n => (qnn_circuit ![X i] weights - (Y i : ℝ)) ^ 2)

/-- One entry of the list comprehension
`preds = [1 if qnn_circuit(x, weights) > 0 else -1 for x in X_test]`. -/
noncomputable def predict (weights : Fin 2 → ℝ) (x : Fin 1 → ℝ) : ℤ :=
  if qnn_circuit x weights > 0 then 1 else -1

/-- The expression `np.mean(preds == Y_test) * 100` of `main.py`: the mean
of the elementwise equality indicators of the predictions and the test
labels, times 100. -/
noncomputable def testAccuracy {n : ℕ} (weights : Fin 2 → ℝ) (X : Fin n → ℝ)
    (Y : Fin n → ℤ) : ℝ :=
  npMean (List.ofFn fun i : Fin n =>
    if predict weights ![X i] = Y i then (1 : ℝ) else 0) * 100

/-! ### The standalone script (`main.py` top level) -/

/-- One line of the standalone script's standard output. -/
inductive Line where
  | start : Line
  | progress (epoch : ℕ) (currentCost : ℝ) : Line
  | finalWeights (w : Fin 2 → ℝ) : Line
  | accuracy (pct : ℝ) : Line

/-- The loop `for i in range(20):` of `main.py`, generic over the external
optimizer: `step_and_cost f s w` models `opt.step_and_cost(f, w)` on
optimizer-internal state `s` (Adam keeps moment estimates), returning the
new weights, the cost value at the old weights, and the new internal
state.  Each iteration makes one such call on the training cost, and the
iterations whose index is a multiple of 5 append a progress line. -/
def trainLoop {σ : Type}
    (step_and_cost : ((Fin 2 → ℝ) → ℝ) → σ → (Fin 2 → ℝ) → (Fin 2 → ℝ) × ℝ × σ)
    (f : (Fin 2 → ℝ) → ℝ) :
    List ℕ → (Fin 2 → ℝ) × σ × List Line → (Fin 2 → ℝ) × σ × List Line
  | [], st => st
  | i :: rest, (w, s, out) =>
    trainLoop step_and_cost f rest
      ((step_and_cost f s w).1, (step_and_cost f s w).2.2,
       out ++ if i % 5 = 0 then [Line.progress i (step_and_cost f s w).2.1] else [])

/-- The top-level body of `main.py`, generic over the random draws and the
external optimizer: generate a 40-sample training set, initialize the
weights at `[0.1, 0.1]`, print the start line, run the 20-iteration
training loop, print the final weights, generate a fresh 10-sample test
set, predict on it and print the accuracy percentage.  The result is the
list of printed lines together with the final value of `weights`. -/
noncomputable def runScript {σ : Type}
    (step_and_cost : ((Fin 2 → ℝ) → ℝ) → σ → (Fin 2 → ℝ) → (Fin 2 → ℝ) × ℝ × σ)
    (opt0 : σ)
    (bits40 : Fin 40 → ℤ) (noise40 : Fin 40 → ℝ)
    (bits10 : Fin 10 → ℤ) (noise10 : Fin 10 → ℝ) :
    List Line × (Fin 2 → ℝ) :=
  let X_train := (generate_data 40 bits40 noise40).1
  let Y_train := (generate_data 40 bits40 noise40).2
  let res := trainLoop step_and_cost (fun w => cost w X_train Y_train)
    (List.range 20) (fun _ => 0.1, opt0, [Line.start])
  let weights := res.1
  let X_test := (generate_data 10 bits10 noise10).1
  let Y_test := (generate_data 10 bits10 noise10).2
  (res.2.2 ++ [Line.finalWeights weights,
    Line.accuracy (testAccuracy weights X_test Y_test)], weights)

/-! ### Helper lemmas on the one-qubit circuit -/

/-- Closed form of the one-qubit circuit: `cos(signal) * cos(weight)`. -/
lemma quantum_brain_eq (s w : ℝ) :
    quantum_brain s w = Real.cos s * Real.cos w := by
  have hs2 : Real.cos (s / 2) ^ 2 + Real.sin (s / 2) ^ 2 = 1 := by
    have := Real.sin_sq_add_cos_sq (s / 2); linarith
  have hw2 : Real.cos (w / 2) ^ 2 + Real.sin (w / 2) ^ 2 = 1 := by
    have := Real.sin_sq_add_cos_sq (w / 2); linarith
  have hcs : Real.cos (s / 2) ^ 2 - Real.sin (s / 2) ^ 2 = Real.cos s := by
    have h := Real.cos_two_mul (s / 2)
    have h2 : 2 * (s / 2) = s := by ring
    rw [h2] at h; linarith
  have hcw : Real.cos (w / 2) ^ 2 - Real.sin (w / 2) ^ 2 = Real.cos w := by
    have h := Real.cos_two_mul (w / 2)
    have h2 : 2 * (w / 2) = w := by ring
    rw [h2] at h; linarith
  simp only [quantum_brain, gateRX, gateRY, ket0, expvalZ, Complex.normSq_apply,
    Complex.add_re, Complex.add_im, Complex.sub_re, Complex.sub_im,
    Complex.mul_re, Complex.mul_im, Complex.neg_re, Complex.neg_im,
    Complex.I_re, Complex.I_im, Complex.ofReal_re, Complex.ofReal_im,
    Complex.one_re, Complex.one_im, Complex.zero_re, Complex.zero_im]
  nlinarith [hs2, hw2, hcs, hcw]

/-- Closed form of the two-qubit circuit: `cos(inputs[0]) * cos(weights[0])`.
The CNOT and the wire-1 rotations drop out of the wire-0 expectation. -/
lemma qnn_circuit_eq (x : Fin 1 → ℝ) (w : Fin 2 → ℝ) :
    qnn_circuit x w = Real.cos (x 0) * Real.cos (w 0) := by
  have hx2 : Real.cos (x 0 / 2) ^ 2 + Real.sin (x 0 / 2) ^ 2 = 1 := by
    have := Real.sin_sq_add_cos_sq (x 0 / 2); linarith
  have hw12 : Real.cos (w 1 / 2) ^ 2 + Real.sin (w 1 / 2) ^ 2 = 1 := by
    have := Real.sin_sq_add_cos_sq (w 1 / 2); linarith
  have hcx : Real.cos (x 0 / 2) ^ 2 - Real.sin (x 0 / 2) ^ 2 = Real.cos (x 0) := by
    have h := Real.cos_two_mul (x 0 / 2)
    have h2 : 2 * (x 0 / 2) = x 0 := by ring
    have h3 := Real.sin_sq_add_cos_sq (x 0 / 2)
    rw [h2] at h; linarith
  have hcw0 : Real.cos (w 0 / 2) ^ 2 - Real.sin (w 0 / 2) ^ 2 = Real.cos (w 0) := by
    have h := Real.cos_two_mul (w 0 / 2)
    have h2 : 2 * (w 0 / 2) = w 0 := by ring
    have h3 := Real.sin_sq_add_cos_sq (w 0 / 2)
    rw [h2] at h; linarith
  simp only [qnn_circuit, gateCNOT01, gateRX1, gateRX0, gateRY1, gateRY0, ket00,
    expvalZ0, Complex.normSq_apply,
    Complex.add_re, Complex.add_im, Complex.sub_re, Complex.sub_im,
    Complex.mul_re, Complex.mul_im, Complex.neg_re, Complex.neg_im,
    Complex.I_re, Complex.I_im, Complex.ofReal_re, Complex.ofReal_im,
    Complex.one_re, Complex.one_im, Complex.zero_re, Complex.zero_im]
  linear_combination
    ((Real.cos (w 0 / 2) ^ 2 - Real.sin (w 0 / 2) ^ 2) *
      (Real.cos (x 0 / 2) ^ 2 - Real.sin (x 0 / 2) ^ 2) *
      (Real.cos (x 0 / 2) ^ 2 + Real.sin (x 0 / 2) ^ 2)) * hw12 +
    ((Real.cos (w 0 / 2) ^ 2 - Real.sin (w 0 / 2) ^ 2) *
      (Real.cos (x 0 / 2) ^ 2 - Real.sin (x 0 / 2) ^ 2)) * hx2 +
    (Real.cos (w 0 / 2) ^ 2 - Real.sin (w 0 / 2) ^ 2) * hcx +
    Real.cos (x 0) * hcw0

/-- Running the training loop over an index list performs one
`step_and_cost` call per index: the final weights and optimizer state are
the `l.length`-fold iterate of a single step on the initial ones. -/
lemma trainLoop_pair {σ : Type}
    (sc : ((Fin 2 → ℝ) → ℝ) → σ → (Fin 2 → ℝ) → (Fin 2 → ℝ) × ℝ × σ)
    (f : (Fin 2 → ℝ) → ℝ) (l : List ℕ) (st : (Fin 2 → ℝ) × σ × List Line) :
    ((trainLoop sc f l st).1, (trainLoop sc f l st).2.1) =
      (fun p : (Fin 2 → ℝ) × σ =>
        ((sc f p.2 p.1).1, (sc f p.2 p.1).2.2))^[l.length] (st.1, st.2.1) := by
  induction l generalizing st with
  | nil => rfl
  | cons i rest ih =>
    obtain ⟨w, s, out⟩ := st
    simp only [trainLoop, List.length_cons, Function.iterate_succ_apply]
    exact ih _

/-- The 20-iteration loop appends exactly the progress lines of epochs
0, 5, 10 and 15, whatever the optimizer does. -/
lemma trainLoop_lines {σ : Type}
    (sc : ((Fin 2 → ℝ) → ℝ) → σ → (Fin 2 → ℝ) → (Fin 2 → ℝ) × ℝ × σ)
    (f : (Fin 2 → ℝ) → ℝ) (w0 : Fin 2 → ℝ) (s0 : σ) (out0 : List Line) :
    ∃ c0 c5 c10 c15 : ℝ,
      (trainLoop sc f (List.range 20) (w0, s0, out0)).2.2 =
        out0 ++ [Line.progress 0 c0, Line.progress 5 c5,
          Line.progress 10 c10, Line.progress 15 c15] := by
  have h20 : List.range 20 =
      [0, 1, 2, 3, 4, 5, 6, 7, 8, 9, 10, 11, 12, 13, 14, 15, 16, 17, 18, 19] := by
    rfl
  simp [h20, trainLoop]

/-- The full line list the script writes, with the loop's progress lines
made explicit. -/
lemma runScript_lines {σ : Type}
    (sc : ((Fin 2 → ℝ) → ℝ) → σ → (Fin 2 → ℝ) → (Fin 2 → ℝ) × ℝ × σ)
    (opt0 : σ) (b40 : Fin 40 → ℤ) (n40 : Fin 40 → ℝ)
    (b10 : Fin 10 → ℤ) (n10 : Fin 10 → ℝ) :
    ∃ c0 c5 c10 c15 : ℝ,
      (runScript sc opt0 b40 n40 b10 n10).1 =
        [Line.start, Line.progress 0 c0, Line.progress 5 c5,
         Line.progress 10 c10, Line.progress 15 c15,
         Line.finalWeights (runScript sc opt0 b40 n40 b10 n10).2,
         Line.accuracy (testAccuracy (runScript sc opt0 b40 n40 b10 n10).2
           (generate_data 10 b10 n10).1 (generate_data 10 b10 n10).2)] := by
  obtain ⟨c0, c5, c10, c15, h⟩ := trainLoop_lines sc
    (fun w => cost w (generate_data 40 b40 n40).1 (generate_data 40 b40 n40).2)
    (fun _ => 0.1) opt0 [Line.start]
  refine ⟨c0, c5, c10, c15, ?_⟩
  show (trainLoop sc _ (List.range 20) _).2.2 ++ _ = _
  rw [h]
  rfl

/-- The cost of `main.py` is the mean over the `n` samples of the squared
difference between the circuit output and the label. -/
lemma cost_eq {n : ℕ} (w : Fin 2 → ℝ) (X : Fin n → ℝ) (Y : Fin n → ℤ) :
    cost w X Y = (∑ i : Fin n, (qnn_circuit ![X i] w - (Y i : ℝ)) ^ 2) / n := by
  simp [cost, npMean, List.sum_ofFn]

/-- The accuracy of `main.py` is the fraction of matching predictions
times 100. -/
lemma testAccuracy_eq {n : ℕ} (w : Fin 2 → ℝ) (X : Fin n → ℝ) (Y : Fin n → ℤ) :
    testAccuracy w X Y =
      (∑ i : Fin n, if predict w ![X i] = Y i then (1 : ℝ) else 0) / n * 100 := by
  simp [testAccuracy, npMean, List.sum_ofFn]

/-- Product of two members of `[-1, 1]` stays in `[-1, 1]`. -/
lemma mul_mem_unit_interval (a b : ℝ) (ha1 : -1 ≤ a) (ha2 : a ≤ 1)
    (hb1 : -1 ≤ b) (hb2 : b ≤ 1) : -1 ≤ a * b ∧ a * b ≤ 1 := by
  constructor <;> nlinarith

/-! ### Claim theorems -/

/-- C1: the accept/reject decision is exactly the sign of the scalar the
circuit evaluation returns: the dashboard renders the success message iff
the returned scalar is strictly positive and the error message otherwise,
a returned value of exactly zero landing in rejection; the standalone
script's test prediction is `+1` iff the circuit output is strictly
positive, else `-1`. -/
theorem decision_is_sign_of_output (s w : ℝ) (x : Fin 1 → ℝ) (v : Fin 2 → ℝ) :
    (verdictOf (quantum_brain s w) = Verdict.granted ↔ 0 < quantum_brain s w) ∧
    (verdictOf (quantum_brain s w) = Verdict.rejected ↔ quantum_brain s w ≤ 0) ∧
    (predict v x = 1 ↔ 0 < qnn_circuit x v) ∧
    (predict v x = -1 ↔ qnn_circuit x v ≤ 0) := by
  unfold verdictOf predict
  refine ⟨?_, ?_, ?_, ?_⟩ <;> split <;>
    simp_all [not_lt, le_of_lt]

/-- C2: the verdict of every dashboard button press evaluates the circuit
at the hard-coded constant weight `1.57`; the weights a training run
learns appear nowhere in the verdict (training and deployment are not
wired together: the verdict is a constant function of the trained
weights). -/
theorem dashboard_uses_hardcoded_weight {σ : Type} (s : ℝ)
    (step_and_cost : ((Fin 2 → ℝ) → ℝ) → σ → (Fin 2 → ℝ) → (Fin 2 → ℝ) × ℝ × σ)
    (opt0 : σ) (bits40 : Fin 40 → ℤ) (noise40 : Fin 40 → ℝ)
    (bits10 : Fin 10 → ℤ) (noise10 : Fin 10 → ℝ) :
    learned_weight = 1.57 ∧
    processConnectionRequest s = verdictOf (quantum_brain s 1.57) ∧
    processConnectionRequest s =
      (fun _trained : Fin 2 → ℝ => verdictOf (quantum_brain s 1.57))
        (runScript step_and_cost opt0 bits40 noise40 bits10 noise10).2 :=
  ⟨rfl, rfl, rfl⟩

/-- C3: when the clean draws are ±1 bits (as `np.random.choice([-1, 1], n)`
guarantees), every label `generate_data` returns is `-1` or `1` and equals
the sign of the corresponding pre-noise value, and the labels do not
depend on the noise draw at all. -/
theorem generate_data_labels (n : ℕ) (bits : Fin n → ℤ)
    (noise noise' : Fin n → ℝ) (hbits : ∀ i, bits i = -1 ∨ bits i = 1) :
    (∀ i, (generate_data n bits noise).2 i = -1 ∨
      (generate_data n bits noise).2 i = 1) ∧
    (∀ i, (generate_data n bits noise).2 i = Int.sign (bits i)) ∧
    (generate_data n bits noise).2 = (generate_data n bits noise').2 := by
  refine ⟨fun i => ?_, fun i => ?_, rfl⟩
  · by_cases h : bits i < 0 <;> simp [generate_data, h]
  · rcases hbits i with h | h <;> rw [show (generate_data n bits noise).2 i =
      if bits i < 0 then -1 else 1 from rfl, h] <;> decide

/-- Closed witness for C3 at the concrete bit vector `[1, -1]` with two
different noise draws. -/
theorem generate_data_labels_witness :
    (∀ i, (generate_data 2 ![1, -1] (fun _ => 0)).2 i = -1 ∨
      (generate_data 2 ![1, -1] (fun _ => 0)).2 i = 1) ∧
    (∀ i, (generate_data 2 ![1, -1] (fun _ => 0)).2 i = Int.sign (![1, -1] i)) ∧
    (generate_data 2 ![1, -1] (fun _ => 0)).2 =
      (generate_data 2 ![1, -1] (fun _ => 1)).2 :=
  generate_data_labels 2 ![1, -1] (fun _ => 0) (fun _ => 1) (by decide)

/-- C4: both circuit evaluations return a scalar in the closed interval
`[-1, 1]`, for every signal value and every weight. -/
theorem circuit_output_in_unit_interval (s w : ℝ) (x : Fin 1 → ℝ)
    (v : Fin 2 → ℝ) :
    (-1 ≤ quantum_brain s w ∧ quantum_brain s w ≤ 1) ∧
    (-1 ≤ qnn_circuit x v ∧ qnn_circuit x v ≤ 1) := by
  rw [quantum_brain_eq, qnn_circuit_eq]
  exact ⟨mul_mem_unit_interval _ _ (Real.neg_one_le_cos s) (Real.cos_le_one s)
      (Real.neg_one_le_cos w) (Real.cos_le_one w),
    mul_mem_unit_interval _ _ (Real.neg_one_le_cos (x 0)) (Real.cos_le_one (x 0))
      (Real.neg_one_le_cos (v 0)) (Real.cos_le_one (v 0))⟩

/-- C5: the circuit evaluations are deterministic and reproducible: two
evaluations of the same circuit on equal arguments return the same
scalar. -/
theorem circuit_eval_deterministic (s1 s2 w1 w2 : ℝ) (x1 x2 : Fin 1 → ℝ)
    (v1 v2 : Fin 2 → ℝ) (hs : s1 = s2) (hw : w1 = w2) (hx : x1 = x2)
    (hv : v1 = v2) :
    quantum_brain s1 w1 = quantum_brain s2 w2 ∧
    qnn_circuit x1 v1 = qnn_circuit x2 v2 := by
  rw [hs, hw, hx, hv]
  exact ⟨rfl, rfl⟩

/-- Closed witness for C5 at the dashboard's default slider value and
hard-coded weight, and the script's initial weights. -/
theorem circuit_eval_deterministic_witness :
    quantum_brain 0.5 1.57 = quantum_brain 0.5 1.57 ∧
    qnn_circuit ![0.5] ![0.1, 0.1] = qnn_circuit ![0.5] ![0.1, 0.1] :=
  circuit_eval_deterministic 0.5 0.5 1.57 1.57 ![0.5] ![0.5]
    ![0.1, 0.1] ![0.1, 0.1] rfl rfl rfl rfl

/-- C9: the two-qubit circuit's output does not depend on the second
weight: the RX rotation on wire 1, the RY encoding on wire 1 and the CNOT
leave the measured Pauli-Z expectation of wire 0 unchanged, so the
optimizer's second parameter is dead with respect to the circuit
output. -/
theorem qnn_independent_of_second_weight (x : Fin 1 → ℝ) (w0 w1 w1' : ℝ) :
    qnn_circuit x ![w0, w1] = qnn_circuit x ![w0, w1'] := by
  rw [qnn_circuit_eq, qnn_circuit_eq]
  simp

/-- C10: the dashboard circuit has the closed form `cos(s) * cos(w)`; the
hard-coded weight satisfies `cos(1.57) > 0`, so the dashboard grants the
connection exactly when `cos(s) > 0`, and on the slider range `[-2, 2]`
exactly when `|s| < π/2`. -/
theorem dashboard_grants_iff_cos_pos :
    (∀ s w : ℝ, quantum_brain s w = Real.cos s * Real.cos w) ∧
    0 < Real.cos learned_weight ∧
    (∀ s : ℝ, processConnectionRequest s = Verdict.granted ↔ 0 < Real.cos s) ∧
    (∀ s : ℝ, -2 ≤ s → s ≤ 2 →
      (processConnectionRequest s = Verdict.granted ↔ |s| < Real.pi / 2)) := by
  have hpi := Real.pi_gt_d6
  have hlw : 0 < Real.cos learned_weight := by
    apply Real.cos_pos_of_mem_Ioo
    constructor
    · show -(Real.pi / 2) < learned_weight
      unfold learned_weight; norm_num; linarith
    · show learned_weight < Real.pi / 2
      unfold learned_weight; norm_num; linarith
  have hgrant : ∀ s : ℝ, processConnectionRequest s = Verdict.granted ↔
      0 < Real.cos s := by
    intro s
    unfold processConnectionRequest verdictOf
    rw [quantum_brain_eq]
    constructor
    · intro h
      by_contra hc
      push_neg at hc
      have : ¬ Real.cos s * Real.cos learned_weight > 0 := by nlinarith
      simp only [this, if_false] at h
      exact Verdict.noConfusion h
    · intro h
      have : Real.cos s * Real.cos learned_weight > 0 := mul_pos h hlw
      simp [this]
  refine ⟨quantum_brain_eq, hlw, hgrant, fun s hs1 hs2 => ?_⟩
  rw [hgrant s]
  constructor
  · intro h
    by_contra hge
    push_neg at hge
    have habs : Real.cos |s| ≤ 0 :=
      Real.cos_nonpos_of_pi_div_two_le_of_le hge (by
        rcases abs_cases s with ⟨he, _⟩ | ⟨he, _⟩ <;> rw [he] <;> linarith)
    rw [Real.cos_abs] at habs
    linarith
  · intro h
    rcases abs_lt.mp h with ⟨h1, h2⟩
    exact Real.cos_pos_of_mem_Ioo ⟨h1, h2⟩

/-- C6: the training is exactly 20 iterations, each one call to the
external optimizer's step function on the cost over the 40-sample
training set (the final weights are the 20-fold iterate of a single
step); the cost is the mean over the 40 samples of the squared difference
between circuit output and label; and the accuracy line is computed on a
freshly generated 10-sample set. -/
theorem training_is_twenty_steps_of_mse {σ : Type}
    (step_and_cost : ((Fin 2 → ℝ) → ℝ) → σ → (Fin 2 → ℝ) → (Fin 2 → ℝ) × ℝ × σ)
    (opt0 : σ) (bits40 : Fin 40 → ℤ) (noise40 : Fin 40 → ℝ)
    (bits10 : Fin 10 → ℤ) (noise10 : Fin 10 → ℝ) :
    ((runScript step_and_cost opt0 bits40 noise40 bits10 noise10).2 =
      ((fun p : (Fin 2 → ℝ) × σ =>
          ((step_and_cost (fun w => cost w (generate_data 40 bits40 noise40).1
              (generate_data 40 bits40 noise40).2) p.2 p.1).1,
           (step_and_cost (fun w => cost w (generate_data 40 bits40 noise40).1
              (generate_data 40 bits40 noise40).2) p.2 p.1).2.2))^[20]
        (fun _ => 0.1, opt0)).1) ∧
    (∀ (w : Fin 2 → ℝ) (X : Fin 40 → ℝ) (Y : Fin 40 → ℤ),
      cost w X Y = (∑ i : Fin 40, (qnn_circuit ![X i] w - (Y i : ℝ)) ^ 2) / 40) ∧
    (∃ pre : List Line,
      (runScript step_and_cost opt0 bits40 noise40 bits10 noise10).1 = pre ++
        [Line.accuracy
          (testAccuracy (runScript step_and_cost opt0 bits40 noise40 bits10 noise10).2
            (generate_data 10 bits10 noise10).1 (generate_data 10 bits10 noise10).2)]) := by
  refine ⟨?_, ?_, ?_⟩
  · have h := trainLoop_pair step_and_cost
      (fun w => cost w (generate_data 40 bits40 noise40).1
        (generate_data 40 bits40 noise40).2)
      (List.range 20) (fun _ => 0.1, opt0, [Line.start])
    rw [List.length_range] at h
    exact congrArg Prod.fst h
  · intro w X Y
    rw [cost_eq]
    norm_num
  · obtain ⟨c0, c5, c10, c15, h⟩ :=
      runScript_lines step_and_cost opt0 bits40 noise40 bits10 noise10
    exact ⟨[Line.start, Line.progress 0 c0, Line.progress 5 c5,
      Line.progress 10 c10, Line.progress 15 c15,
      Line.finalWeights (runScript step_and_cost opt0 bits40 noise40 bits10 noise10).2],
      by rw [h]; rfl⟩

/-- C7: the script writes, in order, a start line, a progress line at
each of the epochs 0, 5, 10 and 15 of its 20 iterations, the final
learned weights, and an accuracy percentage equal to the fraction of test
predictions matching the test labels times 100; it takes no input other
than the random draws and the optimizer. -/
theorem script_output_structure {σ : Type}
    (step_and_cost : ((Fin 2 → ℝ) → ℝ) → σ → (Fin 2 → ℝ) → (Fin 2 → ℝ) × ℝ × σ)
    (opt0 : σ) (bits40 : Fin 40 → ℤ) (noise40 : Fin 40 → ℝ)
    (bits10 : Fin 10 → ℤ) (noise10 : Fin 10 → ℝ) :
    ∃ (c0 c5 c10 c15 : ℝ) (wfin : Fin 2 → ℝ),
      (runScript step_and_cost opt0 bits40 noise40 bits10 noise10).1 =
        [Line.start, Line.progress 0 c0, Line.progress 5 c5,
         Line.progress 10 c10, Line.progress 15 c15,
         Line.finalWeights wfin,
         Line.accuracy (testAccuracy wfin
           (generate_data 10 bits10 noise10).1 (generate_data 10 bits10 noise10).2)] ∧
      testAccuracy wfin
          (generate_data 10 bits10 noise10).1 (generate_data 10 bits10 noise10).2 =
        (∑ i : Fin 10, if predict wfin ![(generate_data 10 bits10 noise10).1 i] =
            (generate_data 10 bits10 noise10).2 i then (1 : ℝ) else 0) / 10 * 100 := by
  obtain ⟨c0, c5, c10, c15, h⟩ :=
    runScript_lines step_and_cost opt0 bits40 noise40 bits10 noise10
  refine ⟨c0, c5, c10, c15,
    (runScript step_and_cost opt0 bits40 noise40 bits10 noise10).2, h, ?_⟩
  rw [testAccuracy_eq]
  norm_num

end QuantumWC
